import Mathlib

/-!
Verification of the file-explorer console tool (src/main.cpp) against its
specification.

The program is a thin layer over POSIX calls.  We embed each operation as a
pure Lean function over an explicit model of the operating-system state it
touches:

* console output is a list of `OutLine` values (`out` = stdout, `err` = stderr),
  one per write, in order;
* `errno` values and their `strerror` texts are an enumeration `Errno`;
* directory entries seen by `readdir` are names plus a `d_type` hint (`DType`);
* a directory tree walked by the recursive search is the nested inductive
  `FS` / `Entries` (a finite tree, so the acyclicity assumed by the search
  claims is built into the model);
* the current working directory's contents, as seen by `fopen`/`remove`, are a
  flat association list `DirState` from names to `Node`s;
* the working directory itself and the set of reachable directories form a
  `World` for `chdir`/`getcwd`.

Machine-level details that matter are kept: permission bits are naturals with
explicit masking (`&&&`), `remove` follows POSIX (`unlink` for non-directories,
`rmdir` for directories), and name ordering is the byte-wise comparison of
C++ `std::string::operator<` (on UTF-8 strings, byte-wise order coincides with
code-point order, which is what `lexLe` below compares).
-/

/-- One console write: `out` models a write to stdout, `err` to stderr. -/
inductive OutLine where
  | out (s : String)
  | err (s : String)
  deriving DecidableEq, Repr

/-- The errno values the modelled operations can produce. -/
inductive Errno where
  | EEXIST | EACCES | ENOENT | ENOTEMPTY | ENOTDIR
  deriving DecidableEq, Repr

/-- The glibc `strerror` text for each modelled errno value. -/
def strerror : Errno → String
  | .EEXIST => "File exists"
  | .EACCES => "Permission denied"
  | .ENOENT => "No such file or directory"
  | .ENOTEMPTY => "Directory not empty"
  | .ENOTDIR => "Not a directory"

/-! ## Permission formatting (`formatPermissions`, main.cpp lines 28-50) -/

/-- POSIX `S_IFMT`: the file-type mask in `st_mode`. -/
def S_IFMT : Nat := 0o170000

/-- POSIX `S_IFDIR`: directory file type. -/
def S_IFDIR : Nat := 0o040000

/-- POSIX `S_IFLNK`: symbolic-link file type. -/
def S_IFLNK : Nat := 0o120000

/-- POSIX owner/group/other permission bits. -/
def S_IRUSR : Nat := 0o400

def S_IWUSR : Nat := 0o200

def S_IXUSR : Nat := 0o100

def S_IRGRP : Nat := 0o40

def S_IWGRP : Nat := 0o20

def S_IXGRP : Nat := 0o10

def S_IROTH : Nat := 0o4

def S_IWOTH : Nat := 0o2

def S_IXOTH : Nat := 0o1

/-- POSIX `S_ISDIR` macro: `(mode & S_IFMT) == S_IFDIR`. -/
def S_ISDIR (mode : Nat) : Bool := mode &&& S_IFMT == S_IFDIR

/-- POSIX `S_ISLNK` macro: `(mode & S_IFMT) == S_IFLNK`. -/
def S_ISLNK (mode : Nat) : Bool := mode &&& S_IFMT == S_IFLNK

/-- The initial `std::string perms = "----------"` of `formatPermissions`,
embedded as its character list. -/
def permInit : List Char := ['-', '-', '-', '-', '-', '-', '-', '-', '-', '-']

/-- Embedding of `formatPermissions` (main.cpp lines 28-50).  The C++ function
starts from `"----------"` and overwrites single positions; each in-place
assignment guarded by an `if` becomes a conditional `List.set`. -/
def formatPermissions (mode : Nat) : List Char :=
  let perms := permInit
  let perms := if S_ISDIR mode then perms.set 0 'd'
    else if S_ISLNK mode then perms.set 0 'l'
    else perms.set 0 '-'
  let perms := if mode &&& S_IRUSR != 0 then perms.set 1 'r' else perms
  let perms := if mode &&& S_IWUSR != 0 then perms.set 2 'w' else perms
  let perms := if mode &&& S_IXUSR != 0 then perms.set 3 'x' else perms
  let perms := if mode &&& S_IRGRP != 0 then perms.set 4 'r' else perms
  let perms := if mode &&& S_IWGRP != 0 then perms.set 5 'w' else perms
  let perms := if mode &&& S_IXGRP != 0 then perms.set 6 'x' else perms
  let perms := if mode &&& S_IROTH != 0 then perms.set 7 'r' else perms
  let perms := if mode &&& S_IWOTH != 0 then perms.set 8 'w' else perms
  let perms := if mode &&& S_IXOTH != 0 then perms.set 9 'x' else perms
  perms

/-- The type character the source selects for position 0:
`d` for a directory, `l` for a symbolic link, `-` otherwise. -/
def typeChar (mode : Nat) : Char :=
  if S_ISDIR mode then 'd' else if S_ISLNK mode then 'l' else '-'

/-- The character a permission position receives: `c` when the mask bit is
set in `mode`, `-` when it is clear. -/
def bitChar (mode mask : Nat) (c : Char) : Char :=
  if mode &&& mask != 0 then c else '-'

/-! ## Name ordering and the directory lister (`listFiles`, lines 82-114) -/

/-- Byte-wise (ordinal) lexicographic `<=` on byte sequences, the comparison
`std::string::operator<` induces (`char_traits<char>` compares as unsigned
bytes). -/
def lexLe : List Nat → List Nat → Bool
  | [], _ => true
  | _ :: _, [] => false
  | a :: as, b :: bs => if a < b then true else if a == b then lexLe as bs else false

/-- The byte sequence of a string.  On UTF-8 data, comparing code points
lexicographically gives the same order as comparing the UTF-8 bytes, so code
points stand in for bytes. -/
def strBytes (s : String) : List Nat := s.data.map Char.toNat

/-- The `std::string` ordering used by `std::sort` in `listFiles`. -/
def strLe (a b : String) : Prop := lexLe (strBytes a) (strBytes b) = true

instance : DecidableRel strLe :=
  fun a b => instDecidableEqBool (lexLe (strBytes a) (strBytes b)) true

/-- The collection loop of `listFiles`: every `readdir` result except the
pseudo-entries `.` and `..` (lines 101-105). -/
def childNames (dirents : List String) : List String :=
  dirents.filter (fun n => !(n == "." || n == ".."))

/-- The `sort(names.begin(), names.end())` call of `listFiles` (line 109):
a comparison sort by `std::string::operator<`.  `std::sort` guarantees a
sorted permutation; since `strLe` is a total order with equal strings
identical, that permutation is unique, so any correct sort embeds it. -/
def sortNames (names : List String) : List String :=
  List.insertionSort strLe names

/-- The detailed-mode column header line (lines 91-94). -/
def detailedHeader : String :=
  "PERMISSIONS OWNER   GROUP   SIZE      MODIFIED             NAME"

/-- Embedding of `listFiles` (lines 82-114).  `openRes` is the `opendir`
outcome: the list of `readdir` names (in readdir order, including `.` and
`..`) or the failing errno.  `showDetails` abstracts `showFileDetails`
(the `lstat`-based row renderer, one console line per name); it is only
reached with `detailed = true`. -/
def listFiles (path : String) (detailed : Bool) (openRes : Except Errno (List String))
    (showDetails : String → OutLine) : List OutLine :=
  match openRes with
  | .error e => [.err ("opendir failed for " ++ path ++ " : " ++ strerror e)]
  | .ok dirents =>
    (if detailed then
      [OutLine.out detailedHeader, OutLine.out (String.mk (List.replicate 80 '-'))]
    else
      [OutLine.out ("\nContents of " ++ path ++ ":")])
    ++ (sortNames (childNames dirents)).map
        (fun name => if detailed then showDetails name else OutLine.out ("  - " ++ name))

/-! ## The current directory's contents (`createFile` / `deleteFile`) -/

/-- A filesystem object a name in the working directory can denote: a regular
file with its byte content, or a directory with the names of its children. -/
inductive Node where
  | file (content : List Nat)
  | dir (children : List String)
  deriving DecidableEq, Repr

/-- The working directory's contents: an association list from names to nodes. -/
abbrev DirState := List (String × Node)

/-- Look a name up in the working directory. -/
def lookupNode (st : DirState) (name : String) : Option Node :=
  match st with
  | [] => none
  | (n, node) :: rest => if n == name then some node else lookupNode rest name

/-- Remove a name from the working directory. -/
def eraseName (st : DirState) (name : String) : DirState :=
  match st with
  | [] => []
  | (n, node) :: rest => if n == name then rest else (n, node) :: eraseName rest name

/-- POSIX `remove(3)`: equivalent to `unlink` for non-directories and to
`rmdir` for directories; `rmdir` fails with `ENOTEMPTY` on a non-empty
directory, a missing name fails with `ENOENT`. -/
def osRemove (st : DirState) (name : String) : Except Errno DirState :=
  match lookupNode st name with
  | none => .error .ENOENT
  | some (.file _) => .ok (eraseName st name)
  | some (.dir children) =>
    match children with
    | [] => .ok (eraseName st name)
    | _ :: _ => .error .ENOTEMPTY

/-- Embedding of `deleteFile` (lines 133-139): one `remove` call, success
confirmation on stdout, `strerror` report on stderr. -/
def deleteFile (name : String) (st : DirState) : DirState × List OutLine :=
  match osRemove st name with
  | .ok st2 => (st2, [.out ("Deleted: " ++ name)])
  | .error e => (st, [.err ("remove failed: " ++ strerror e)])

/-- `fopen(name, "wx")`: exclusive creation.  Fails with `EEXIST` when the
name already exists (leaving the directory untouched); otherwise creates an
empty file, unless the directory refuses the creation (`canWrite = false`
models any other OS-level failure cause, reported as `EACCES`). -/
def fopenExclusive (st : DirState) (canWrite : Bool) (name : String) :
    Except Errno DirState :=
  if (lookupNode st name).isSome then .error .EEXIST
  else if canWrite then .ok (st ++ [(name, Node.file [])])
  else .error .EACCES

/-- Embedding of `createFile` (lines 117-130): a single `fopen("wx")` attempt;
`EEXIST` is reported distinctly on stdout, every other failure generically on
stderr with its `strerror` text. -/
def createFile (name : String) (canWrite : Bool) (st : DirState) :
    DirState × List OutLine :=
  match fopenExclusive st canWrite name with
  | .error .EEXIST => (st, [.out ("File already exists: " ++ name)])
  | .error e => (st, [.err ("fopen failed: " ++ strerror e)])
  | .ok st2 => (st2, [.out ("File created: " ++ name)])

/-! ## The working directory (`changeDirectory`, lines 142-150) -/

/-- The state `chdir`/`getcwd` touch: the current working directory and the
set of absolute paths that name directories the process may enter. -/
structure World where
  cwd : String
  dirs : List String
  deriving DecidableEq, Repr

/-- Resolution of a `chdir` argument: an absolute path (one beginning with
`/`) stands alone, a relative one is resolved against the current working
directory. -/
def resolvePath (cwd path : String) : String :=
  if path.data.head? = some '/' then path else cwd ++ "/" ++ path

/-- POSIX `chdir`: succeeds exactly when the resolved path is an enterable
directory, and then changes only the working directory; on failure the
working directory is untouched. -/
def osChdir (w : World) (path : String) : Except Errno World :=
  if w.dirs.contains (resolvePath w.cwd path) then
    .ok (World.mk (resolvePath w.cwd path) w.dirs)
  else .error .ENOENT

/-- POSIX `getcwd`: reads the working directory back from the OS. -/
def osGetcwd (w : World) : String := w.cwd

/-- Embedding of `changeDirectory` (lines 142-150): on success the new
working directory is re-read with `getcwd` and printed; on failure the
`strerror` text goes to stderr. -/
def changeDirectory (path : String) (w : World) : World × List OutLine :=
  match osChdir w path with
  | .ok w2 => (w2, [.out ("Changed directory to: " ++ osGetcwd w2)])
  | .error e => (w, [.err ("chdir failed: " ++ strerror e)])

/-! ## The recursive search (`searchFile`, lines 153-174) -/

/-- The `d_type` hint `readdir` reports for an entry. -/
inductive DType where
  | DT_DIR | DT_REG | DT_LNK | DT_UNKNOWN
  deriving DecidableEq, Repr

mutual
/-- A directory as the search sees it: whether `opendir` succeeds on it, and
its `readdir` stream.  An inductive tree is finite and acyclic by
construction, matching the search claims' acyclicity premise. -/
inductive FS : Type where
  | dir (canOpen : Bool) (entries : Entries) : FS
  deriving DecidableEq

/-- The `readdir` stream of a directory, in readdir order: each entry carries
its name, its `d_type` hint, and the directory tree found behind it if the
search opens it (only ever consulted for entries hinted `DT_DIR`). -/
inductive Entries : Type where
  | nil : Entries
  | cons (name : String) (dtype : DType) (sub : FS) (rest : Entries) : Entries
  deriving DecidableEq
end

mutual
/-- Embedding of `searchFile` (lines 153-174): opens the directory, silently
returning on failure, then walks the entry stream. -/
def searchFile (dirname target : String) : FS → List OutLine
  | .dir canOpen entries =>
    if canOpen then searchEntries dirname target entries else []

/-- The `while (readdir)` loop body of `searchFile`: skip `.` and `..`;
recurse when the `d_type` hint says directory; otherwise compare the name
with the target and print a `Found:` line on equality. -/
def searchEntries (dirname target : String) : Entries → List OutLine
  | .nil => []
  | .cons name dtype sub rest =>
    (if name == "." || name == ".." then []
     else if dtype == DType.DT_DIR then
       searchFile (dirname ++ "/" ++ name) target sub
     else if name == target then [.out ("Found: " ++ (dirname ++ "/" ++ name))]
     else [])
    ++ searchEntries dirname target rest
end

mutual
/-- Height of a directory tree: the depth of nested directory nodes. -/
def fsHeight : FS → Nat
  | .dir _ entries => entriesHeight entries + 1

/-- Height of an entry stream: the largest subtree height in it. -/
def entriesHeight : Entries → Nat
  | .nil => 0
  | .cons _ _ sub rest => max (fsHeight sub) (entriesHeight rest)
end

mutual
/-- `searchFile` with an explicit call-stack budget: each recursive descent
into a subdirectory consumes one unit, and the walk aborts with `none` when
the budget is exhausted.  `searchFileFuel n` terminating with `some` shows the
call depth of the real recursion is at most `n`. -/
def searchFileFuel : Nat → String → String → FS → Option (List OutLine)
  | 0, _, _, _ => none
  | fuel + 1, dirname, target, .dir canOpen entries =>
    if canOpen then searchEntriesFuel fuel dirname target entries else some []
termination_by fuel _ _ fs => (fuel, sizeOf fs)

/-- The entry-stream walk of `searchFileFuel`; the loop itself consumes no
budget, only descents do. -/
def searchEntriesFuel : Nat → String → String → Entries → Option (List OutLine)
  | _, _, _, .nil => some []
  | fuel, dirname, target, .cons name dtype sub rest =>
    let head :=
      if name == "." || name == ".." then some []
      else if dtype == DType.DT_DIR then
        searchFileFuel fuel (dirname ++ "/" ++ name) target sub
      else if name == target then some [OutLine.out ("Found: " ++ (dirname ++ "/" ++ name))]
      else some []
    match head, searchEntriesFuel fuel dirname target rest with
    | some h, some t => some (h ++ t)
    | _, _ => none
termination_by fuel _ _ es => (fuel, sizeOf es)
end

/-- The tree `root/{a.txt, sub/a.txt, sub/b.txt}` of the search test
property, with every directory openable and regular-file hints on the
files. -/
def exampleTree : FS :=
  .dir true (.cons "a.txt" .DT_REG (.dir true .nil)
    (.cons "sub" .DT_DIR
      (.dir true (.cons "a.txt" .DT_REG (.dir true .nil)
        (.cons "b.txt" .DT_REG (.dir true .nil) .nil)))
      .nil))

/-! ## Theorems: permission formatting (claims about `formatPermissions`) -/

/-- Closed form of `formatPermissions`: position 0 is the type character and
each of the nine permission positions holds its `bitChar`. -/
theorem formatPermissions_eq (mode : Nat) :
    formatPermissions mode =
      [typeChar mode,
       bitChar mode S_IRUSR 'r', bitChar mode S_IWUSR 'w', bitChar mode S_IXUSR 'x',
       bitChar mode S_IRGRP 'r', bitChar mode S_IWGRP 'w', bitChar mode S_IXGRP 'x',
       bitChar mode S_IROTH 'r', bitChar mode S_IWOTH 'w', bitChar mode S_IXOTH 'x'] := by
  have e0 : (if S_ISDIR mode then permInit.set 0 'd'
      else if S_ISLNK mode then permInit.set 0 'l'
      else permInit.set 0 '-') =
      [typeChar mode, '-', '-', '-', '-', '-', '-', '-', '-', '-'] := by
    by_cases h1 : S_ISDIR mode = true
    · simp [permInit, typeChar, h1]
    · by_cases h2 : S_ISLNK mode = true <;> simp [permInit, typeChar, h1, h2]
  have e1 : (if mode &&& S_IRUSR != 0 then
        ([typeChar mode, '-', '-', '-', '-', '-', '-', '-', '-', '-'] : List Char).set 1 'r'
      else [typeChar mode, '-', '-', '-', '-', '-', '-', '-', '-', '-']) =
      [typeChar mode, bitChar mode S_IRUSR 'r', '-', '-', '-', '-', '-', '-', '-', '-'] := by
    by_cases h : (mode &&& S_IRUSR != 0) = true <;> simp [bitChar, h]
  have e2 : (if mode &&& S_IWUSR != 0 then
        ([typeChar mode, bitChar mode S_IRUSR 'r',
          '-', '-', '-', '-', '-', '-', '-', '-'] : List Char).set 2 'w'
      else [typeChar mode, bitChar mode S_IRUSR 'r', '-', '-', '-', '-', '-', '-', '-', '-']) =
      [typeChar mode, bitChar mode S_IRUSR 'r', bitChar mode S_IWUSR 'w',
       '-', '-', '-', '-', '-', '-', '-'] := by
    by_cases h : (mode &&& S_IWUSR != 0) = true <;> simp [bitChar, h]
  have e3 : (if mode &&& S_IXUSR != 0 then
        ([typeChar mode, bitChar mode S_IRUSR 'r', bitChar mode S_IWUSR 'w',
          '-', '-', '-', '-', '-', '-', '-'] : List Char).set 3 'x'
      else [typeChar mode, bitChar mode S_IRUSR 'r', bitChar mode S_IWUSR 'w',
        '-', '-', '-', '-', '-', '-', '-']) =
      [typeChar mode, bitChar mode S_IRUSR 'r', bitChar mode S_IWUSR 'w',
       bitChar mode S_IXUSR 'x', '-', '-', '-', '-', '-', '-'] := by
    by_cases h : (mode &&& S_IXUSR != 0) = true <;> simp [bitChar, h]
  have e4 : (if mode &&& S_IRGRP != 0 then
        ([typeChar mode, bitChar mode S_IRUSR 'r', bitChar mode S_IWUSR 'w',
          bitChar mode S_IXUSR 'x', '-', '-', '-', '-', '-', '-'] : List Char).set 4 'r'
      else [typeChar mode, bitChar mode S_IRUSR 'r', bitChar mode S_IWUSR 'w',
        bitChar mode S_IXUSR 'x', '-', '-', '-', '-', '-', '-']) =
      [typeChar mode, bitChar mode S_IRUSR 'r', bitChar mode S_IWUSR 'w',
       bitChar mode S_IXUSR 'x', bitChar mode S_IRGRP 'r', '-', '-', '-', '-', '-'] := by
    by_cases h : (mode &&& S_IRGRP != 0) = true <;> simp [bitChar, h]
  have e5 : (if mode &&& S_IWGRP != 0 then
        ([typeChar mode, bitChar mode S_IRUSR 'r', bitChar mode S_IWUSR 'w',
          bitChar mode S_IXUSR 'x', bitChar mode S_IRGRP 'r',
          '-', '-', '-', '-', '-'] : List Char).set 5 'w'
      else [typeChar mode, bitChar mode S_IRUSR 'r', bitChar mode S_IWUSR 'w',
        bitChar mode S_IXUSR 'x', bitChar mode S_IRGRP 'r', '-', '-', '-', '-', '-']) =
      [typeChar mode, bitChar mode S_IRUSR 'r', bitChar mode S_IWUSR 'w',
       bitChar mode S_IXUSR 'x', bitChar mode S_IRGRP 'r', bitChar mode S_IWGRP 'w',
       '-', '-', '-', '-'] := by
    by_cases h : (mode &&& S_IWGRP != 0) = true <;> simp [bitChar, h]
  have e6 : (if mode &&& S_IXGRP != 0 then
        ([typeChar mode, bitChar mode S_IRUSR 'r', bitChar mode S_IWUSR 'w',
          bitChar mode S_IXUSR 'x', bitChar mode S_IRGRP 'r', bitChar mode S_IWGRP 'w',
          '-', '-', '-', '-'] : List Char).set 6 'x'
      else [typeChar mode, bitChar mode S_IRUSR 'r', bitChar mode S_IWUSR 'w',
        bitChar mode S_IXUSR 'x', bitChar mode S_IRGRP 'r', bitChar mode S_IWGRP 'w',
        '-', '-', '-', '-']) =
      [typeChar mode, bitChar mode S_IRUSR 'r', bitChar mode S_IWUSR 'w',
       bitChar mode S_IXUSR 'x', bitChar mode S_IRGRP 'r', bitChar mode S_IWGRP 'w',
       bitChar mode S_IXGRP 'x', '-', '-', '-'] := by
    by_cases h : (mode &&& S_IXGRP != 0) = true <;> simp [bitChar, h]
  have e7 : (if mode &&& S_IROTH != 0 then
        ([typeChar mode, bitChar mode S_IRUSR 'r', bitChar mode S_IWUSR 'w',
          bitChar mode S_IXUSR 'x', bitChar mode S_IRGRP 'r', bitChar mode S_IWGRP 'w',
          bitChar mode S_IXGRP 'x', '-', '-', '-'] : List Char).set 7 'r'
      else [typeChar mode, bitChar mode S_IRUSR 'r', bitChar mode S_IWUSR 'w',
        bitChar mode S_IXUSR 'x', bitChar mode S_IRGRP 'r', bitChar mode S_IWGRP 'w',
        bitChar mode S_IXGRP 'x', '-', '-', '-']) =
      [typeChar mode, bitChar mode S_IRUSR 'r', bitChar mode S_IWUSR 'w',
       bitChar mode S_IXUSR 'x', bitChar mode S_IRGRP 'r', bitChar mode S_IWGRP 'w',
       bitChar mode S_IXGRP 'x', bitChar mode S_IROTH 'r', '-', '-'] := by
    by_cases h : (mode &&& S_IROTH != 0) = true <;> simp [bitChar, h]
  have e8 : (if mode &&& S_IWOTH != 0 then
        ([typeChar mode, bitChar mode S_IRUSR 'r', bitChar mode S_IWUSR 'w',
          bitChar mode S_IXUSR 'x', bitChar mode S_IRGRP 'r', bitChar mode S_IWGRP 'w',
          bitChar mode S_IXGRP 'x', bitChar mode S_IROTH 'r', '-', '-'] : List Char).set 8 'w'
      else [typeChar mode, bitChar mode S_IRUSR 'r', bitChar mode S_IWUSR 'w',
        bitChar mode S_IXUSR 'x', bitChar mode S_IRGRP 'r', bitChar mode S_IWGRP 'w',
        bitChar mode S_IXGRP 'x', bitChar mode S_IROTH 'r', '-', '-']) =
      [typeChar mode, bitChar mode S_IRUSR 'r', bitChar mode S_IWUSR 'w',
       bitChar mode S_IXUSR 'x', bitChar mode S_IRGRP 'r', bitChar mode S_IWGRP 'w',
       bitChar mode S_IXGRP 'x', bitChar mode S_IROTH 'r', bitChar mode S_IWOTH 'w',
       '-'] := by
    by_cases h : (mode &&& S_IWOTH != 0) = true <;> simp [bitChar, h]
  have e9 : (if mode &&& S_IXOTH != 0 then
        ([typeChar mode, bitChar mode S_IRUSR 'r', bitChar mode S_IWUSR 'w',
          bitChar mode S_IXUSR 'x', bitChar mode S_IRGRP 'r', bitChar mode S_IWGRP 'w',
          bitChar mode S_IXGRP 'x', bitChar mode S_IROTH 'r', bitChar mode S_IWOTH 'w',
          '-'] : List Char).set 9 'x'
      else [typeChar mode, bitChar mode S_IRUSR 'r', bitChar mode S_IWUSR 'w',
        bitChar mode S_IXUSR 'x', bitChar mode S_IRGRP 'r', bitChar mode S_IWGRP 'w',
        bitChar mode S_IXGRP 'x', bitChar mode S_IROTH 'r', bitChar mode S_IWOTH 'w', '-']) =
      [typeChar mode, bitChar mode S_IRUSR 'r', bitChar mode S_IWUSR 'w',
       bitChar mode S_IXUSR 'x', bitChar mode S_IRGRP 'r', bitChar mode S_IWGRP 'w',
       bitChar mode S_IXGRP 'x', bitChar mode S_IROTH 'r', bitChar mode S_IWOTH 'w',
       bitChar mode S_IXOTH 'x'] := by
    by_cases h : (mode &&& S_IXOTH != 0) = true <;> simp [bitChar, h]
  simp only [formatPermissions]
  rw [e0, e1, e2, e3, e4, e5, e6, e7, e8, e9]

/-- C8: for every file-mode value the rendered permission string is exactly
the 10 characters `<type><rwxrwxrwx>` with `d`/`l`/`-` as the type character
and `r`/`w`/`x` versus `-` at each permission position per the corresponding
bit; in particular a regular file with bits rwxr-xr-- renders `-rwxr-xr--`
and a directory with the same bits renders `drwxr-xr--`. -/
theorem formatPermissions_rendering (mode : Nat) :
    formatPermissions mode =
      [typeChar mode,
       bitChar mode S_IRUSR 'r', bitChar mode S_IWUSR 'w', bitChar mode S_IXUSR 'x',
       bitChar mode S_IRGRP 'r', bitChar mode S_IWGRP 'w', bitChar mode S_IXGRP 'x',
       bitChar mode S_IROTH 'r', bitChar mode S_IWOTH 'w', bitChar mode S_IXOTH 'x'] ∧
    formatPermissions 0o100754 = ['-', 'r', 'w', 'x', 'r', '-', 'x', 'r', '-', '-'] ∧
    formatPermissions 0o040754 = ['d', 'r', 'w', 'x', 'r', '-', 'x', 'r', '-', '-'] :=
  ⟨formatPermissions_eq mode, by decide, by decide⟩

/-- C9: `formatPermissions` is total and deterministic — for every mode value
it returns exactly 10 characters, position 0 drawn from `d`/`l`/`-` and the
nine permission positions from their fixed slot character or `-`, whatever
the (possibly unusual) file-type bits are. -/
theorem formatPermissions_total_shape (mode : Nat) :
    (formatPermissions mode).length = 10 ∧
    ((formatPermissions mode)[0]? = some 'd' ∨ (formatPermissions mode)[0]? = some 'l' ∨
      (formatPermissions mode)[0]? = some '-') ∧
    ((formatPermissions mode)[1]? = some 'r' ∨ (formatPermissions mode)[1]? = some '-') ∧
    ((formatPermissions mode)[2]? = some 'w' ∨ (formatPermissions mode)[2]? = some '-') ∧
    ((formatPermissions mode)[3]? = some 'x' ∨ (formatPermissions mode)[3]? = some '-') ∧
    ((formatPermissions mode)[4]? = some 'r' ∨ (formatPermissions mode)[4]? = some '-') ∧
    ((formatPermissions mode)[5]? = some 'w' ∨ (formatPermissions mode)[5]? = some '-') ∧
    ((formatPermissions mode)[6]? = some 'x' ∨ (formatPermissions mode)[6]? = some '-') ∧
    ((formatPermissions mode)[7]? = some 'r' ∨ (formatPermissions mode)[7]? = some '-') ∧
    ((formatPermissions mode)[8]? = some 'w' ∨ (formatPermissions mode)[8]? = some '-') ∧
    ((formatPermissions mode)[9]? = some 'x' ∨ (formatPermissions mode)[9]? = some '-') := by
  rw [formatPermissions_eq]
  refine ⟨rfl, ?_, ?_, ?_, ?_, ?_, ?_, ?_, ?_, ?_, ?_⟩
  · unfold typeChar
    by_cases h1 : S_ISDIR mode = true
    · simp [h1]
    · by_cases h2 : S_ISLNK mode = true
      · simp [h1, h2]
      · simp [h1, h2]
  · by_cases h : (mode &&& S_IRUSR != 0) = true <;> simp [bitChar, h]
  · by_cases h : (mode &&& S_IWUSR != 0) = true <;> simp [bitChar, h]
  · by_cases h : (mode &&& S_IXUSR != 0) = true <;> simp [bitChar, h]
  · by_cases h : (mode &&& S_IRGRP != 0) = true <;> simp [bitChar, h]
  · by_cases h : (mode &&& S_IWGRP != 0) = true <;> simp [bitChar, h]
  · by_cases h : (mode &&& S_IXGRP != 0) = true <;> simp [bitChar, h]
  · by_cases h : (mode &&& S_IROTH != 0) = true <;> simp [bitChar, h]
  · by_cases h : (mode &&& S_IWOTH != 0) = true <;> simp [bitChar, h]
  · by_cases h : (mode &&& S_IXOTH != 0) = true <;> simp [bitChar, h]

/-! ## Theorems: name ordering and the directory lister -/

/-- Totality of the byte-wise lexicographic ordering. -/
theorem lexLe_total : ∀ as bs, lexLe as bs = true ∨ lexLe bs as = true
  | [], _ => Or.inl rfl
  | _ :: _, [] => Or.inr rfl
  | a :: as, b :: bs => by
    simp only [lexLe]
    rcases Nat.lt_trichotomy a b with h | h | h
    · left; simp [h]
    · subst h
      rcases lexLe_total as bs with ih | ih
      · left; simp [ih]
      · right; simp [ih]
    · right; simp [h]

/-- Transitivity of the byte-wise lexicographic ordering. -/
theorem lexLe_trans : ∀ as bs cs, lexLe as bs = true → lexLe bs cs = true →
    lexLe as cs = true
  | [], _, _, _, _ => rfl
  | _ :: _, [], _, h1, _ => by simp [lexLe] at h1
  | _ :: _, _ :: _, [], _, h2 => by simp [lexLe] at h2
  | a :: as, b :: bs, c :: cs, h1, h2 => by
    simp only [lexLe] at h1 h2 ⊢
    rcases Nat.lt_trichotomy a b with hab | hab | hab
    · rcases Nat.lt_trichotomy b c with hbc | hbc | hbc
      · simp [Nat.lt_trans hab hbc]
      · subst hbc; simp [hab]
      · have h3 : ¬ b < c := by omega
        have h4 : (b == c) = false := by simp; omega
        simp [h3, h4] at h2
    · subst hab
      rcases Nat.lt_trichotomy a c with hac | hac | hac
      · simp [hac]
      · subst hac
        have h5 : ¬ a < a := by omega
        simp only [h5, if_false, beq_self_eq_true, if_true] at h1 h2 ⊢
        exact lexLe_trans as bs cs h1 h2
      · have h3 : ¬ a < c := by omega
        have h4 : (a == c) = false := by simp; omega
        simp [h3, h4] at h2
    · have h3 : ¬ a < b := by omega
      have h4 : (a == b) = false := by simp; omega
      simp [h3, h4] at h1

/-- C3: for a directory that can be opened, plain-mode `listFiles` prints
exactly the `readdir` children minus the `.`/`..` pseudo-entries, sorted
ascending by the byte-wise lexicographic order, with no duplicates; for a
directory that cannot be opened, the error is reported and no names are
printed. -/
theorem listFiles_plain_spec (path : String) (es : List String) (e : Errno)
    (showD : String → OutLine) :
    listFiles path false (.error e) showD =
      [.err ("opendir failed for " ++ path ++ " : " ++ strerror e)] ∧
    listFiles path false (.ok es) showD =
      .out ("\nContents of " ++ path ++ ":")
        :: (sortNames (childNames es)).map (fun n => .out ("  - " ++ n)) ∧
    (sortNames (childNames es)).Perm (childNames es) ∧
    List.Sorted strLe (sortNames (childNames es)) ∧
    (es.Nodup → (sortNames (childNames es)).Nodup) := by
  refine ⟨rfl, by simp [listFiles], ?_, ?_, ?_⟩
  · exact List.perm_insertionSort strLe (childNames es)
  · haveI ht : IsTotal String strLe :=
      ⟨fun a b => lexLe_total (strBytes a) (strBytes b)⟩
    haveI htr : IsTrans String strLe :=
      ⟨fun a b c => lexLe_trans (strBytes a) (strBytes b) (strBytes c)⟩
    exact List.sorted_insertionSort strLe (childNames es)
  · intro hnd
    have hfil : (childNames es).Nodup := hnd.filter (fun n => !(n == "." || n == ".."))
    exact ((List.perm_insertionSort strLe (childNames es)).nodup_iff).mpr hfil

/-- Closed instance of the plain-listing specification at a concrete
directory whose `readdir` stream is `b`, `a`, `.`. -/
theorem listFiles_plain_spec_witness :
    (["b", "a", "."] : List String).Nodup ∧
    (sortNames (childNames ["b", "a", "."])).Nodup := by
  constructor
  · decide
  · exact (listFiles_plain_spec "p" ["b", "a", "."] Errno.EACCES
      (fun n => OutLine.out n)).2.2.2.2 (by decide)

/-! ## Theorems: create, delete, chdir -/

/-- C1 counterexample: a name denoting an (empty) directory IS removed by
`deleteFile`, with the success confirmation printed — the underlying
primitive `remove` calls `rmdir` for a directory argument, so the delete
operation is directory-capable for empty directories. -/
theorem deleteFile_removes_empty_directory :
    lookupNode [("d", Node.dir [])] "d" = some (Node.dir []) ∧
    deleteFile "d" [("d", Node.dir [])] = ([], [.out "Deleted: d"]) := by
  exact ⟨by decide, by decide⟩

/-- C1 (amended): `deleteFile` makes one non-recursive `remove` call; it
removes a named file, and since POSIX `remove` acts as `rmdir` on a
directory it also removes an empty directory (printing the success
confirmation), while for a non-empty directory it reports the OS failure
reason instead of the success confirmation and leaves the state unchanged. -/
theorem deleteFile_directory_spec (name : String) (st : DirState) :
    (∀ c cs, lookupNode st name = some (Node.dir (c :: cs)) →
      deleteFile name st =
        (st, [.err ("remove failed: " ++ strerror Errno.ENOTEMPTY)])) ∧
    (lookupNode st name = some (Node.dir []) →
      deleteFile name st = (eraseName st name, [.out ("Deleted: " ++ name)])) ∧
    (∀ content, lookupNode st name = some (Node.file content) →
      deleteFile name st = (eraseName st name, [.out ("Deleted: " ++ name)])) ∧
    (lookupNode st name = none →
      deleteFile name st = (st, [.err ("remove failed: " ++ strerror Errno.ENOENT)])) := by
  refine ⟨?_, ?_, ?_, ?_⟩
  · intro c cs h; simp [deleteFile, osRemove, h]
  · intro h; simp [deleteFile, osRemove, h]
  · intro content h; simp [deleteFile, osRemove, h]
  · intro h; simp [deleteFile, osRemove, h]

/-- Closed instance of the delete specification: a non-empty directory is
refused with the OS reason, an empty directory and a plain file are removed,
a missing name is reported. -/
theorem deleteFile_directory_spec_witness :
    deleteFile "x" [("x", Node.dir ["y"])] =
      ([("x", Node.dir ["y"])], [.err ("remove failed: " ++ strerror Errno.ENOTEMPTY)]) ∧
    deleteFile "e" [("e", Node.dir [])] = (eraseName [("e", Node.dir [])] "e", [.out ("Deleted: " ++ "e")]) ∧
    deleteFile "f" [("f", Node.file [7])] = (eraseName [("f", Node.file [7])] "f", [.out ("Deleted: " ++ "f")]) ∧
    deleteFile "g" [] = ([], [.err ("remove failed: " ++ strerror Errno.ENOENT)]) := by
  refine ⟨?_, ?_, ?_, ?_⟩
  · exact (deleteFile_directory_spec "x" [("x", Node.dir ["y"])]).1 "y" [] (by decide)
  · exact (deleteFile_directory_spec "e" [("e", Node.dir [])]).2.1 (by decide)
  · exact (deleteFile_directory_spec "f" [("f", Node.file [7])]).2.2.1 [7] (by decide)
  · exact (deleteFile_directory_spec "g" []).2.2.2 (by decide)

/-- C2: `createFile` has exclusive-create semantics.  When the name is free
and the directory permits creation, it succeeds, the created file is empty,
and the confirmation is printed.  When the name exists (whatever it denotes,
and whatever the write permission), the single attempt fails with the
distinct "already exists" report and the state — in particular the existing
file — is unmodified.  Any other failure cause yields the generic report
with the OS failure text, which differs from the "already exists" report. -/
theorem createFile_exclusive_spec (name : String) (st : DirState) :
    (lookupNode st name = none →
      createFile name true st =
        (st ++ [(name, Node.file [])], [.out ("File created: " ++ name)])) ∧
    (∀ node, lookupNode st name = some node → ∀ w,
      createFile name w st = (st, [.out ("File already exists: " ++ name)])) ∧
    (lookupNode st name = none →
      createFile name false st =
        (st, [.err ("fopen failed: " ++ strerror Errno.EACCES)])) ∧
    OutLine.out ("File already exists: " ++ name)
      ≠ OutLine.err ("fopen failed: " ++ strerror Errno.EACCES) := by
  refine ⟨?_, ?_, ?_, by simp⟩
  · intro h; simp [createFile, fopenExclusive, h]
  · intro node h w; simp [createFile, fopenExclusive, h]
  · intro h; simp [createFile, fopenExclusive, h]

/-- Closed instance of the exclusive-create specification: creating `f` in an
empty directory succeeds with an empty file, a second attempt reports
"already exists" and leaves the state unchanged. -/
theorem createFile_exclusive_spec_witness :
    createFile "f" true [] = ([("f", Node.file [])], [.out ("File created: " ++ "f")]) ∧
    createFile "f" true [("f", Node.file [])] =
      ([("f", Node.file [])], [.out ("File already exists: " ++ "f")]) := by
  constructor
  · have h := (createFile_exclusive_spec "f" []).1 (by decide)
    simpa using h
  · exact (createFile_exclusive_spec "f" [("f", Node.file [])]).2.1
      (Node.file []) (by decide) true

/-- C7: `changeDirectory` is atomic on the working directory.  On success the
new working directory is exactly the argument resolved against the previous
one, and it is re-read via `getcwd` and printed; on failure the OS failure
reason is reported and the `World` — in particular the working directory —
is left unchanged. -/
theorem changeDirectory_spec (w : World) (path : String) :
    (w.dirs.contains (resolvePath w.cwd path) = true →
      changeDirectory path w =
        (World.mk (resolvePath w.cwd path) w.dirs,
         [.out ("Changed directory to: " ++ resolvePath w.cwd path)]) ∧
      osGetcwd (changeDirectory path w).1 = resolvePath w.cwd path) ∧
    (w.dirs.contains (resolvePath w.cwd path) = false →
      changeDirectory path w = (w, [.err ("chdir failed: " ++ strerror Errno.ENOENT)])) := by
  constructor
  · intro h
    have h2 : resolvePath w.cwd path ∈ w.dirs := by simpa using h
    constructor
    · simp [changeDirectory, osChdir, osGetcwd, h2]
    · simp [changeDirectory, osChdir, osGetcwd, h2]
  · intro h
    have h2 : resolvePath w.cwd path ∉ w.dirs := by simpa using h
    simp [changeDirectory, osChdir, h2]

/-- Closed instance of the chdir specification: a relative path is resolved
against the current directory and entered; a missing path leaves the world
unchanged and reports the failure. -/
theorem changeDirectory_spec_witness :
    changeDirectory "docs" (World.mk "/home" ["/home/docs", "/tmp"]) =
      (World.mk "/home/docs" ["/home/docs", "/tmp"],
       [.out ("Changed directory to: " ++ resolvePath "/home" "docs")]) ∧
    changeDirectory "/none" (World.mk "/home" ["/home/docs", "/tmp"]) =
      (World.mk "/home" ["/home/docs", "/tmp"],
       [.err ("chdir failed: " ++ strerror Errno.ENOENT)]) := by
  constructor
  · exact ((changeDirectory_spec (World.mk "/home" ["/home/docs", "/tmp"]) "docs").1
      (by decide)).1
  · exact (changeDirectory_spec (World.mk "/home" ["/home/docs", "/tmp"]) "/none").2
      (by decide)

/-! ## Theorems: the recursive search -/

/-- C4: a directory that cannot be opened is silently skipped by the search:
the whole console output for that subtree is empty (zero matches, zero error
lines), and an unopenable subdirectory entry contributes nothing while the
walk of its sibling entries continues unaffected. -/
theorem searchFile_silent_skip (dirname target name : String)
    (entries subEntries : Entries) (rest : Entries)
    (hdot : name ≠ ".") (hdotdot : name ≠ "..") :
    searchFile dirname target (.dir false entries) = [] ∧
    searchEntries dirname target (.cons name .DT_DIR (.dir false subEntries) rest) =
      searchEntries dirname target rest := by
  constructor
  · simp [searchFile]
  · simp [searchEntries, searchFile, hdot, hdotdot]

/-- Closed instance of the silent-skip specification: an unopenable
subdirectory (with a match inside it) produces nothing, while the sibling
walk still reports its match. -/
theorem searchFile_silent_skip_witness :
    searchFile "r" "t" (.dir false (.cons "t" .DT_REG (.dir true .nil) .nil)) = [] ∧
    searchEntries "r" "t"
      (.cons "locked" .DT_DIR (.dir false (.cons "t" .DT_REG (.dir true .nil) .nil))
        (.cons "t" .DT_REG (.dir true .nil) .nil)) =
      searchEntries "r" "t" (.cons "t" .DT_REG (.dir true .nil) .nil) :=
  searchFile_silent_skip "r" "t" "locked"
    (.cons "t" .DT_REG (.dir true .nil) .nil)
    (.cons "t" .DT_REG (.dir true .nil) .nil)
    (.cons "t" .DT_REG (.dir true .nil) .nil)
    (by decide) (by decide)

/-- C5: for an entry other than `.`/`..`, the search branches solely on the
`d_type` hint: a `DT_DIR` entry is recursed into and its own name is never
compared against the target (even a target-named directory entry yields no
match line of its own), while an entry with any other hint — a
symlink-to-directory reported as `DT_LNK` included — is only name-compared
and never recursed into: its result does not depend on the tree behind it. -/
theorem searchFile_dtype_branching (dirname target name : String) (dtype : DType)
    (sub : FS) (rest : Entries) (hdot : name ≠ ".") (hdotdot : name ≠ "..") :
    (dtype = DType.DT_DIR →
      searchEntries dirname target (.cons name dtype sub rest) =
        searchFile (dirname ++ "/" ++ name) target sub
          ++ searchEntries dirname target rest) ∧
    (∀ canOpen, searchEntries dirname target
        (.cons name DType.DT_DIR (.dir canOpen .nil) rest) =
      searchEntries dirname target rest) ∧
    (dtype ≠ DType.DT_DIR →
      searchEntries dirname target (.cons name dtype sub rest) =
        (if name = target then [.out ("Found: " ++ (dirname ++ "/" ++ name))] else [])
          ++ searchEntries dirname target rest) ∧
    (dtype ≠ DType.DT_DIR → ∀ sub2,
      searchEntries dirname target (.cons name dtype sub rest) =
        searchEntries dirname target (.cons name dtype sub2 rest)) := by
  refine ⟨?_, ?_, ?_, ?_⟩
  · intro hdir
    subst hdir
    simp [searchEntries, hdot, hdotdot]
  · intro canOpen
    cases canOpen <;> simp [searchEntries, searchFile, hdot, hdotdot]
  · intro hne
    have hb : (dtype == DType.DT_DIR) = false := by
      simpa using hne
    simp [searchEntries, hdot, hdotdot, hb]
  · intro hne sub2
    have hb : (dtype == DType.DT_DIR) = false := by
      simpa using hne
    simp [searchEntries, hdot, hdotdot, hb]

/-- Closed instance of the `d_type` branching specification: a `DT_LNK`
entry named like the target is only name-compared (one match line), and its
result ignores the subtree stored behind it. -/
theorem searchFile_dtype_branching_witness :
    searchEntries "r" "t" (.cons "t" .DT_LNK (.dir true .nil) .nil) =
      (if "t" = "t" then [.out ("Found: " ++ ("r" ++ "/" ++ "t"))] else [])
        ++ searchEntries "r" "t" Entries.nil :=
  (searchFile_dtype_branching "r" "t" "t" .DT_LNK (.dir true .nil) .nil
    (by decide) (by decide)).2.2.1 (by decide)

/-- C6: on the tree `root/{a.txt, sub/a.txt, sub/b.txt}` the search reports
every exact, case-sensitive match as a full path — both `root/a.txt` and
`root/sub/a.txt`, in traversal order, with no deduplication and no early
stop — and reports nothing for a name absent from the tree (`c.txt`), nor
for a name differing only in case (`A.txt`). -/
theorem searchFile_example_tree :
    searchFile "root" "a.txt" exampleTree =
      [.out "Found: root/a.txt", .out "Found: root/sub/a.txt"] ∧
    searchFile "root" "c.txt" exampleTree = [] ∧
    searchFile "root" "A.txt" exampleTree = [] := by
  exact ⟨by decide, by decide, by decide⟩

mutual
/-- With a call budget of at least the tree height, the fuelled search
completes and computes exactly the unfuelled search's output. -/
theorem searchFileFuel_complete (dirname target : String) (fs : FS) (fuel : Nat)
    (h : fsHeight fs ≤ fuel) :
    searchFileFuel fuel dirname target fs = some (searchFile dirname target fs) := by
  cases fs with
  | dir canOpen entries =>
    have h1 : entriesHeight entries + 1 ≤ fuel := by
      simpa [fsHeight] using h
    cases fuel with
    | zero => omega
    | succ f =>
      have h2 : entriesHeight entries ≤ f := by omega
      cases canOpen with
      | true =>
        simp [searchFileFuel, searchFile,
          searchEntriesFuel_complete dirname target entries f h2]
      | false => simp [searchFileFuel, searchFile]

/-- With a call budget of at least the largest subtree height, the fuelled
entry walk completes and computes exactly the unfuelled walk's output. -/
theorem searchEntriesFuel_complete (dirname target : String) (es : Entries) (fuel : Nat)
    (h : entriesHeight es ≤ fuel) :
    searchEntriesFuel fuel dirname target es = some (searchEntries dirname target es) := by
  cases es with
  | nil => simp [searchEntriesFuel, searchEntries]
  | cons name dtype sub rest =>
    have hsub : fsHeight sub ≤ fuel := by
      have := h
      simp only [entriesHeight, max_le_iff] at this
      exact this.1
    have hrest : entriesHeight rest ≤ fuel := by
      have := h
      simp only [entriesHeight, max_le_iff] at this
      exact this.2
    by_cases hdot : (name == "." || name == "..") = true
    · simp [searchEntriesFuel, searchEntries, hdot,
        searchEntriesFuel_complete dirname target rest fuel hrest]
    · by_cases hdir : (dtype == DType.DT_DIR) = true
      · simp [searchEntriesFuel, searchEntries, hdot, hdir,
          searchFileFuel_complete (dirname ++ "/" ++ name) target sub fuel hsub,
          searchEntriesFuel_complete dirname target rest fuel hrest]
      · by_cases htar : (name == target) = true
        · simp [searchEntriesFuel, searchEntries, hdot, hdir, htar,
            searchEntriesFuel_complete dirname target rest fuel hrest]
        · simp [searchEntriesFuel, searchEntries, hdot, hdir, htar,
            searchEntriesFuel_complete dirname target rest fuel hrest]
end

/-- C10: on every (finite, acyclic by construction) directory tree the
search terminates: a call-stack budget equal to the tree height — which
shrinks along the child relation on every recursive descent — already lets
the fuelled search finish with the exact output of the recursive search. -/
theorem searchFile_terminates (dirname target : String) (fs : FS) :
    searchFileFuel (fsHeight fs) dirname target fs =
      some (searchFile dirname target fs) :=
  searchFileFuel_complete dirname target fs (fsHeight fs) (Nat.le_refl _)
